import Mathlib

/-
  Verification of the presence & broadcast coordination layer of the
  backend (src/services/database.ts + the socket server file).

  The JavaScript `Map` objects (`activePresentations`, `userSockets`,
  `socketUsers`) are embedded as association lists with unique keys
  (uniqueness is intrinsic to `Map`); `Set` objects are embedded as
  duplicate-free lists in insertion order.  Each socket event handler
  is embedded as a pure function from the in-memory server state and
  the persistent store to a new state, store, and a trace of observable
  actions (store writes, socket emissions, log lines), in the order the
  source performs them.  Fallible store calls are represented by a
  boolean parameter saying whether the awaited call succeeded or threw.
-/

namespace Backend

/-- Association list standing in for a JS `Map` with string keys. -/
abbrev Assoc (α : Type) : Type := List (String × α)

/-- `Map.get`: value of the first (unique) entry for the key. -/
def lookupA {α : Type} : Assoc α → String → Option α
  | [], _ => none
  | (k, v) :: rest, key => if k = key then some v else lookupA rest key

/-- `Map.set`: replace the value in place when the key exists, else append. -/
def insertA {α : Type} : Assoc α → String → α → Assoc α
  | [], key, v => [(key, v)]
  | (k, w) :: rest, key, v =>
    if k = key then (k, v) :: rest else (k, w) :: insertA rest key v

/-- `Map.delete`: drop the (unique) entry for the key. -/
def eraseA {α : Type} : Assoc α → String → Assoc α
  | [], _ => []
  | (k, w) :: rest, key => if k = key then rest else (k, w) :: eraseA rest key

/-- `Set.add`: append unless already present (JS sets keep insertion order). -/
def setAdd (s : List String) (x : String) : List String :=
  if x ∈ s then s else s ++ [x]

/-- `Set.delete`: remove the element. -/
def setDelete (s : List String) (x : String) : List String :=
  s.filter (fun y => y ≠ x)

/-- A row of the `presentation_users` table (the durable UserSession). -/
structure PresentationUser where
  id : String
  presentation_id : String
  nickname : String
  role : String
  socket_id : Option String
  is_active : Bool
  joined_at : Int
  last_seen : Int
deriving Repr, DecidableEq

/-- A row of the `slides` table (the fields this core touches). -/
structure Slide where
  id : String
  presentation_id : String
  title : String
  slide_order : Int
deriving Repr, DecidableEq

/-- A row of the `text_blocks` table (the fields this core touches). -/
structure TextBlock where
  id : String
  slide_id : String
  content : String
deriving Repr, DecidableEq

/-- The persistent store: presentation ids plus the tables the handlers mutate. -/
structure Store where
  presentations : List String
  sessions : List PresentationUser
  slides : List Slide
  text_blocks : List TextBlock
deriving Repr, DecidableEq

/-- `DatabaseService.addUserToPresentation`: inserts a fresh row with
`is_active = true`; `joined_at`/`last_seen` come from the schema defaults. -/
def addUserToPresentation (db : Store) (pid nickname role sid newId : String)
    (now : Int) : Store :=
  { db with sessions := db.sessions ++
      [{ id := newId, presentation_id := pid, nickname := nickname, role := role,
         socket_id := some sid, is_active := true, joined_at := now,
         last_seen := now }] }

/-- `DatabaseService.removeUserFromPresentation`: `update { is_active: false }`
on the rows matching both the user id and the presentation id. -/
def removeUserFromPresentation (db : Store) (pid uid : String) : Store :=
  { db with sessions := db.sessions.map (fun s =>
      if s.id = uid ∧ s.presentation_id = pid then { s with is_active := false }
      else s) }

/-- `DatabaseService.removeUserBySocketId`: `update { is_active: false }` on
the rows whose `socket_id` matches. -/
def removeUserBySocketId (db : Store) (sid : String) : Store :=
  { db with sessions := db.sessions.map (fun s =>
      if s.socket_id = some sid then { s with is_active := false } else s) }

/-- One row of the reaper update in `DatabaseService.cleanupInactiveUsers`:
`update { is_active: false } where last_seen < now - m*60*1000 and
is_active = true` (timestamps in milliseconds). -/
def reapSession (now m : Int) (s : PresentationUser) : PresentationUser :=
  if s.last_seen < now - m * 60 * 1000 ∧ s.is_active = true then
    { s with is_active := false }
  else s

/-- `DatabaseService.cleanupInactiveUsers` applied to the whole table. -/
def cleanupInactiveUsers (db : Store) (now m : Int) : Store :=
  { db with sessions := db.sessions.map (reapSession now m) }

/-- `DatabaseService.addSlide`: inserts a row with `slide_order = index`. -/
def addSlide (db : Store) (pid title : String) (index : Int) (newId : String) :
    Store :=
  { db with slides := db.slides ++
      [{ id := newId, presentation_id := pid, title := title,
         slide_order := index }] }

/-- `DatabaseService.updateTextBlock`: updates the row matching the id. -/
def updateTextBlock (db : Store) (tbid content : String) : Store :=
  { db with text_blocks := db.text_blocks.map (fun t =>
      if t.id = tbid then { t with content := content } else t) }

/-- The three process-wide maps of the socket server:
`activePresentations : presentationId -> Set of socketIds`,
`userSockets : userId -> socketId`, `socketUsers : socketId -> userId`. -/
structure ServerState where
  activePresentations : Assoc (List String)
  userSockets : Assoc String
  socketUsers : Assoc String
deriving Repr, DecidableEq

/-- An observable step of a handler, in source order: a store write, an
`io.to(socketId).emit`, a `socket.to(room).emit` (room members except the
sender socket), or a `console.error` log line. -/
inductive Action where
  | storeWrite (op : String)
  | emit (target event : String)
  | emitRoom (room sender event : String)
  | log (msg : String)
deriving Repr, DecidableEq

/-- Members of a presentation room: the tracked socket set, empty when the
presentation has no entry. -/
def membersOf (rooms : Assoc (List String)) (pid : String) : List String :=
  (lookupA rooms pid).getD []

/-- `broadcastToPresentation`: looks up the socket set and emits the event to
every socket in it; does nothing when the entry is absent. -/
def broadcastToPresentation (rooms : Assoc (List String)) (pid event : String) :
    List Action :=
  match lookupA rooms pid with
  | some sockets => sockets.map (fun sid => Action.emit sid event)
  | none => []

/-- `addSocketToPresentation`: create the set if absent, then add the socket. -/
def addSocketToPresentation (rooms : Assoc (List String)) (pid sid : String) :
    Assoc (List String) :=
  match lookupA rooms pid with
  | none => insertA rooms pid (setAdd [] sid)
  | some s => insertA rooms pid (setAdd s sid)

/-- `removeSocketFromPresentation`: delete the socket from the set and drop
the map entry when the set becomes empty. -/
def removeSocketFromPresentation (rooms : Assoc (List String)) (pid sid : String) :
    Assoc (List String) :=
  match lookupA rooms pid with
  | none => rooms
  | some s =>
    let s2 := setDelete s sid
    if s2.length = 0 then eraseA rooms pid else insertA rooms pid s2

/-- Socket ids to which a trace of actions directly emits (the delivery
targets of `io.to(...).emit`). -/
def recipients (acts : List Action) : List String :=
  acts.filterMap (fun a => match a with
    | Action.emit t _ => some t
    | _ => none)

/-- Modelled from the spec: the Broadcast Router contract
`broadcast(presentationId, eventKind, payload, excluding)` delivers to every
member not in `excluding`; the source has no such `excluding` parameter, so
this definition exists only to be compared against the code's router. -/
def broadcastSpecExcluding (members excluding : List String) : List String :=
  members.filter (fun m => m ∉ excluding)

/-- Result of running one socket event handler. -/
structure HandlerResult where
  state : ServerState
  store : Store
  actions : List Action
deriving Repr, DecidableEq

/-- The `join-presentation` handler.  `pid ∈ db.presentations` plays the part
of `getPresentationById` returning a row rather than null; `addOk` says
whether the awaited `addUserToPresentation` insert succeeded (a thrown
`getPresentationById` follows the same catch path: no mutation, an `error`
emit to the caller).  On success the handler inserts the session row, tracks
the socket in the three maps, and emits the snapshot to the joiner and a
`user-joined` notice to the other room members. -/
def joinPresentation (σ : ServerState) (db : Store)
    (sid pid nickname role newUserId : String) (now : Int) (addOk : Bool) :
    HandlerResult :=
  if pid ∈ db.presentations then
    if addOk then
      { state :=
          { activePresentations := addSocketToPresentation σ.activePresentations pid sid,
            userSockets := insertA σ.userSockets newUserId sid,
            socketUsers := insertA σ.socketUsers sid newUserId },
        store := addUserToPresentation db pid nickname role sid newUserId now,
        actions := [Action.storeWrite "addUserToPresentation",
                    Action.emit sid "presentation-joined",
                    Action.emitRoom pid sid "user-joined"] }
    else
      { state := σ, store := db,
        actions := [Action.log "Error joining presentation",
                    Action.emit sid "error"] }
  else
    { state := σ, store := db, actions := [Action.emit sid "error"] }

/-- The `leave-presentation` handler.  The store update is awaited first
inside the `try`; when it throws, the `catch` only logs, so the in-memory
cleanup below it does not run. -/
def leavePresentation (σ : ServerState) (db : Store) (sid pid uid : String)
    (storeOk : Bool) : HandlerResult :=
  if storeOk then
    { state :=
        { activePresentations := removeSocketFromPresentation σ.activePresentations pid sid,
          userSockets := eraseA σ.userSockets uid,
          socketUsers := eraseA σ.socketUsers sid },
      store := removeUserFromPresentation db pid uid,
      actions := [Action.storeWrite "removeUserFromPresentation",
                  Action.emitRoom pid sid "user-left"] }
  else
    { state := σ, store := db, actions := [Action.log "Error leaving presentation"] }

/-- The `for (const [presentationId, sockets] of activePresentations)` loop of
the disconnect handler: for each entry containing the socket, remove it (and
drop the entry if it became empty) and emit `user-left` to that room.  The
loop iterates the map in entry order while only ever mutating the entry under
the current key, so over unique keys it is this structural recursion. -/
def disconnectLoop (sid : String) :
    Assoc (List String) → Assoc (List String) × List Action
  | [] => ([], [])
  | e :: rest =>
    let r := disconnectLoop sid rest
    if sid ∈ e.2 then
      let s2 := setDelete e.2 sid
      (if s2.length = 0 then r.1 else (e.1, s2) :: r.1,
       Action.emitRoom e.1 sid "user-left" :: r.2)
    else
      (e :: r.1, r.2)

/-- The `disconnect` handler: no-op when the socket has no registry binding;
otherwise awaits `removeUserBySocketId` (on a throw the `catch` only logs and
the cleanup is skipped), then deletes both registry entries and sweeps the
socket out of every room, emitting `user-left` to each room that held it. -/
def disconnectHandler (σ : ServerState) (db : Store) (sid : String)
    (storeOk : Bool) : HandlerResult :=
  match lookupA σ.socketUsers sid with
  | none => { state := σ, store := db, actions := [] }
  | some uid =>
    if storeOk then
      { state :=
          { activePresentations := (disconnectLoop sid σ.activePresentations).1,
            userSockets := eraseA σ.userSockets uid,
            socketUsers := eraseA σ.socketUsers sid },
        store := removeUserBySocketId db sid,
        actions := Action.storeWrite "removeUserBySocketId"
          :: (disconnectLoop sid σ.activePresentations).2 }
    else
      { state := σ, store := db,
        actions := [Action.log "Error handling disconnect"] }

/-- The `add-slide` handler: await the insert, then broadcast `slide-added`;
on a store throw, log and emit `error` to the caller only. -/
def addSlideHandler (σ : ServerState) (db : Store) (sid pid title : String)
    (index : Int) (newId : String) (storeOk : Bool) : Store × List Action :=
  if storeOk then
    (addSlide db pid title index newId,
     Action.storeWrite "addSlide"
       :: broadcastToPresentation σ.activePresentations pid "slide-added")
  else
    (db, [Action.log "Error adding slide", Action.emit sid "error"])

/-- The `update-text-block` handler: await the update, then broadcast
`text-block-updated`; on a store throw, log and emit `error` to the caller. -/
def updateTextBlockHandler (σ : ServerState) (db : Store)
    (sid pid tbid content : String) (storeOk : Bool) : Store × List Action :=
  if storeOk then
    (updateTextBlock db tbid content,
     Action.storeWrite "updateTextBlock"
       :: broadcastToPresentation σ.activePresentations pid "text-block-updated")
  else
    (db, [Action.log "Error updating text block", Action.emit sid "error"])

/-- An inbound connection event, with the store oracle bits it consumed. -/
inductive Event where
  | join (sid pid nickname role newUserId : String) (now : Int) (addOk : Bool)
  | leave (sid pid uid : String) (storeOk : Bool)
  | disconnect (sid : String) (storeOk : Bool)
deriving Repr, DecidableEq

/-- The whole system: the in-memory maps plus the persistent store. -/
structure Sys where
  state : ServerState
  store : Store
deriving Repr, DecidableEq

/-- Dispatch one event to its handler. -/
def step (s : Sys) : Event → Sys
  | Event.join sid pid n r nu now ok =>
    let h := joinPresentation s.state s.store sid pid n r nu now ok
    { state := h.state, store := h.store }
  | Event.leave sid pid uid ok =>
    let h := leavePresentation s.state s.store sid pid uid ok
    { state := h.state, store := h.store }
  | Event.disconnect sid ok =>
    let h := disconnectHandler s.state s.store sid ok
    { state := h.state, store := h.store }

/-- Run a sequence of events. -/
def run (s : Sys) : List Event → Sys
  | [] => s
  | e :: es => run (step s e) es

/-- Number of room entries whose socket set contains `t`. -/
def roomCount (rooms : Assoc (List String)) (t : String) : Nat :=
  List.countP (fun e => decide (t ∈ e.2)) rooms

/-- Invariant I1 of the spec: every connection handle is in at most one
room's membership set. -/
def I1 (σ : ServerState) : Prop :=
  ∀ t, roomCount σ.activePresentations t ≤ 1

/-- No room entry maps to the empty set. -/
def noEmptyRooms (rooms : Assoc (List String)) : Prop :=
  ∀ e ∈ rooms, e.2 ≠ []

/-- Guard under which I1 is preserved: a join only by a socket currently in
no room (a fresh connection, or one that left or disconnected first). -/
def goodEvent (σ : ServerState) : Event → Prop
  | Event.join sid _ _ _ _ _ _ => roomCount σ.activePresentations sid = 0
  | _ => True

/-- Every event of the sequence satisfies the guard in the state it runs in. -/
def goodSeq : Sys → List Event → Prop
  | _, [] => True
  | s, e :: es => goodEvent s.state e ∧ goodSeq (step s e) es

/-- `P` holds after each step of the sequence. -/
def holdsAlong (P : Sys → Prop) : Sys → List Event → Prop
  | _, [] => True
  | s, e :: es => P (step s e) ∧ holdsAlong P (step s e) es

/-- Row-wise relation between a sessions table before and after an update:
no row is deleted or reordered, every field except `is_active` is unchanged,
and `is_active` only ever moves from `true` to `false`. -/
def onlyDeactivates (old new : List PresentationUser) : Prop :=
  List.Forall₂ (fun a b => b.id = a.id ∧ b.presentation_id = a.presentation_id ∧
    b.nickname = a.nickname ∧ b.role = a.role ∧ b.socket_id = a.socket_id ∧
    b.joined_at = a.joined_at ∧ b.last_seen = a.last_seen ∧
    (b.is_active = true → a.is_active = true)) old new

theorem lookupA_insertA_self {α : Type} (m : Assoc α) (k : String) (v : α) :
    lookupA (insertA m k v) k = some v := by
  induction m with
  | nil => simp [insertA, lookupA]
  | cons e rest ih =>
    obtain ⟨k0, w⟩ := e
    by_cases h : k0 = k
    · simp [insertA, h, lookupA]
    · simp [insertA, h, lookupA, ih]

theorem lookupA_insertA_ne {α : Type} (m : Assoc α) (k k2 : String) (v : α)
    (h : k ≠ k2) : lookupA (insertA m k v) k2 = lookupA m k2 := by
  induction m with
  | nil => simp [insertA, lookupA, h]
  | cons e rest ih =>
    obtain ⟨k0, w⟩ := e
    by_cases h0 : k0 = k
    · subst h0
      simp [insertA, lookupA, h]
    · simp [insertA, h0, lookupA, ih]

theorem mem_of_lookupA {α : Type} {m : Assoc α} {k : String} {v : α}
    (h : lookupA m k = some v) : (k, v) ∈ m := by
  induction m with
  | nil => simp [lookupA] at h
  | cons e rest ih =>
    obtain ⟨k0, w⟩ := e
    by_cases h0 : k0 = k
    · subst h0
      simp [lookupA] at h
      simp [h]
    · simp [lookupA, h0] at h
      exact List.mem_cons_of_mem _ (ih h)

theorem insertA_of_lookupA_none {α : Type} {m : Assoc α} {k : String} (v : α)
    (h : lookupA m k = none) : insertA m k v = m ++ [(k, v)] := by
  induction m with
  | nil => simp [insertA]
  | cons e rest ih =>
    obtain ⟨k0, w⟩ := e
    by_cases h0 : k0 = k
    · simp [lookupA, h0] at h
    · simp [lookupA, h0] at h
      simp [insertA, h0, ih h]

theorem mem_insertA {α : Type} {m : Assoc α} {k : String} {v : α}
    {e : String × α} (h : e ∈ insertA m k v) : e ∈ m ∨ e = (k, v) := by
  induction m with
  | nil =>
    simp [insertA] at h
    exact Or.inr h
  | cons e0 rest ih =>
    obtain ⟨k0, w⟩ := e0
    by_cases h0 : k0 = k
    · subst h0
      simp [insertA] at h
      rcases h with h | h
      · exact Or.inr (by simp [h])
      · exact Or.inl (List.mem_cons_of_mem _ h)
    · simp [insertA, h0] at h
      rcases h with h | h
      · exact Or.inl (by simp [h])
      · rcases ih h with h2 | h2
        · exact Or.inl (List.mem_cons_of_mem _ h2)
        · exact Or.inr h2

theorem eraseA_sublist {α : Type} (m : Assoc α) (k : String) :
    List.Sublist (eraseA m k) m := by
  induction m with
  | nil => simp [eraseA]
  | cons e rest ih =>
    obtain ⟨k0, w⟩ := e
    by_cases h0 : k0 = k
    · simp only [eraseA, if_pos h0]
      exact List.sublist_cons_self _ _
    · simp only [eraseA, if_neg h0]
      exact List.Sublist.cons₂ _ ih

theorem lookupA_eraseA_self {α : Type} {m : Assoc α} {k : String}
    (hnd : (m.map Prod.fst).Nodup) : lookupA (eraseA m k) k = none := by
  induction m with
  | nil => simp [eraseA, lookupA]
  | cons e rest ih =>
    obtain ⟨k0, w⟩ := e
    simp at hnd
    by_cases h0 : k0 = k
    · subst h0
      simp only [eraseA, if_pos rfl, if_true]
      cases hcase : lookupA rest k0 with
      | none => rfl
      | some v => exact absurd (mem_of_lookupA hcase) (hnd.1 v)
    · simp only [eraseA, if_neg h0, lookupA]
      exact ih hnd.2

theorem mem_setAdd_ne {s : List String} {t x : String} (h : t ≠ x) :
    t ∈ setAdd s x ↔ t ∈ s := by
  unfold setAdd
  by_cases hx : x ∈ s
  · simp [hx]
  · simp [hx, h]

theorem mem_setAdd_self (s : List String) (x : String) : x ∈ setAdd s x := by
  unfold setAdd
  by_cases hx : x ∈ s <;> simp [hx]

theorem mem_setDelete {s : List String} {t x : String} :
    t ∈ setDelete s x ↔ t ∈ s ∧ t ≠ x := by
  simp [setDelete]

theorem setAdd_ne_nil (s : List String) (x : String) : setAdd s x ≠ [] := by
  unfold setAdd
  by_cases hx : x ∈ s
  · simp [hx]
    intro h
    rw [h] at hx
    simp at hx
  · simp [hx]

theorem countP_insertA {α : Type} (p : String × α → Bool) {m : Assoc α}
    {k : String} {s : α} (v : α) (h : lookupA m k = some s) :
    List.countP p (insertA m k v) + (if p (k, s) then 1 else 0)
      = List.countP p m + (if p (k, v) then 1 else 0) := by
  induction m with
  | nil => simp [lookupA] at h
  | cons e rest ih =>
    obtain ⟨k0, w⟩ := e
    by_cases h0 : k0 = k
    · subst h0
      simp only [lookupA, if_pos rfl, if_true, Option.some.injEq] at h
      subst h
      simp only [insertA, if_pos rfl, if_true, List.countP_cons]
      split_ifs <;> omega
    · simp only [lookupA, if_neg h0] at h
      have hrec := ih h
      simp only [insertA, if_neg h0, List.countP_cons]
      split_ifs at hrec ⊢ <;> omega

theorem roomCount_addSocket_ne (rooms : Assoc (List String)) (pid : String)
    {sid t : String} (h : t ≠ sid) :
    roomCount (addSocketToPresentation rooms pid sid) t = roomCount rooms t := by
  cases hl : lookupA rooms pid with
  | none =>
    simp only [addSocketToPresentation, hl, roomCount]
    rw [insertA_of_lookupA_none _ hl]
    simp [List.countP_append, setAdd, h]
  | some s =>
    simp only [addSocketToPresentation, hl, roomCount]
    have hc := countP_insertA (fun e => decide (t ∈ e.2)) (setAdd s sid) hl
    have hm : t ∈ setAdd s sid ↔ t ∈ s := mem_setAdd_ne h
    by_cases hts : t ∈ s
    · simp [hts, hm.mpr hts] at hc
      omega
    · have hnot : t ∉ setAdd s sid := fun hx => hts (hm.mp hx)
      simp [hts, hnot] at hc
      omega

theorem roomCount_addSocket_self (rooms : Assoc (List String)) (pid sid : String)
    (h : roomCount rooms sid = 0) :
    roomCount (addSocketToPresentation rooms pid sid) sid = 1 := by
  unfold roomCount at h
  cases hl : lookupA rooms pid with
  | none =>
    simp only [addSocketToPresentation, hl, roomCount]
    rw [insertA_of_lookupA_none _ hl]
    simp [List.countP_append, h, mem_setAdd_self]
  | some s =>
    simp only [addSocketToPresentation, hl, roomCount]
    have hmem := mem_of_lookupA hl
    have hs : sid ∉ s := by
      have h2 := (List.countP_eq_zero.mp h) _ hmem
      simpa using h2
    have hc := countP_insertA (fun e => decide (sid ∈ e.2)) (setAdd s sid) hl
    simp [hs, mem_setAdd_self s sid] at hc
    omega

theorem roomCount_removeSocket_le (rooms : Assoc (List String)) (pid sid t : String) :
    roomCount (removeSocketFromPresentation rooms pid sid) t ≤ roomCount rooms t := by
  cases hl : lookupA rooms pid with
  | none =>
    simp only [removeSocketFromPresentation, hl]
    exact le_refl _
  | some s =>
    simp only [removeSocketFromPresentation, hl, roomCount]
    by_cases hlen : (setDelete s sid).length = 0
    · rw [if_pos hlen]
      exact List.Sublist.countP_le _ (eraseA_sublist rooms pid)
    · rw [if_neg hlen]
      have hc := countP_insertA (fun e => decide (t ∈ e.2)) (setDelete s sid) hl
      by_cases ht2 : t ∈ setDelete s sid
      · simp [ht2, (mem_setDelete.mp ht2).1] at hc
        omega
      · by_cases ht : t ∈ s
        · simp [ht2, ht] at hc
          omega
        · simp [ht2, ht] at hc
          omega

theorem roomCount_disconnectLoop_le (rooms : Assoc (List String)) (sid t : String) :
    roomCount (disconnectLoop sid rooms).1 t ≤ roomCount rooms t := by
  induction rooms with
  | nil => simp [disconnectLoop, roomCount]
  | cons e rest ih =>
    unfold roomCount at ih ⊢
    by_cases he : sid ∈ e.2
    · simp only [disconnectLoop, if_pos he]
      by_cases hlen : (setDelete e.2 sid).length = 0
      · rw [if_pos hlen]
        refine le_trans ih ?_
        rw [List.countP_cons]
        omega
      · rw [if_neg hlen]
        rw [List.countP_cons, List.countP_cons]
        have hmono : (if decide (t ∈ (e.1, setDelete e.2 sid).2) = true then 1 else 0)
            ≤ (if decide (t ∈ e.2) = true then 1 else 0) := by
          by_cases ht2 : t ∈ setDelete e.2 sid
          · simp [ht2, (mem_setDelete.mp ht2).1]
          · simp [ht2]
        omega
    · simp only [disconnectLoop, if_neg he]
      rw [List.countP_cons, List.countP_cons]
      omega

theorem step_preserves_I1 (s : Sys) (e : Event) (hg : goodEvent s.state e)
    (h1 : I1 s.state) : I1 (step s e).state := by
  cases e with
  | join sid pid n r nu now ok =>
    by_cases hp : pid ∈ s.store.presentations
    · cases ok with
      | false => simpa [step, joinPresentation, hp] using h1
      | true =>
        intro t
        simp only [step, joinPresentation, if_pos hp, if_true]
        by_cases ht : t = sid
        · subst ht
          have hg2 : roomCount s.state.activePresentations t = 0 := hg
          rw [roomCount_addSocket_self _ _ _ hg2]
        · rw [roomCount_addSocket_ne _ _ ht]
          exact h1 t
    · simpa [step, joinPresentation, hp] using h1
  | leave sid pid uid ok =>
    cases ok with
    | false => simpa [step, leavePresentation] using h1
    | true =>
      intro t
      simp only [step, leavePresentation, if_true]
      exact le_trans (roomCount_removeSocket_le _ _ _ _) (h1 t)
  | disconnect sid ok =>
    cases hu : lookupA s.state.socketUsers sid with
    | none => simpa [step, disconnectHandler, hu] using h1
    | some uid =>
      cases ok with
      | false => simpa [step, disconnectHandler, hu] using h1
      | true =>
        intro t
        simp only [step, disconnectHandler, hu, if_true]
        exact le_trans (roomCount_disconnectLoop_le _ _ _) (h1 t)

theorem noEmptyRooms_addSocket (rooms : Assoc (List String)) (pid sid : String)
    (h : noEmptyRooms rooms) :
    noEmptyRooms (addSocketToPresentation rooms pid sid) := by
  cases hl : lookupA rooms pid with
  | none =>
    simp only [addSocketToPresentation, hl]
    intro e he
    rcases mem_insertA he with h2 | h2
    · exact h e h2
    · rw [h2]
      exact setAdd_ne_nil [] sid
  | some s =>
    simp only [addSocketToPresentation, hl]
    intro e he
    rcases mem_insertA he with h2 | h2
    · exact h e h2
    · rw [h2]
      exact setAdd_ne_nil s sid

theorem noEmptyRooms_removeSocket (rooms : Assoc (List String)) (pid sid : String)
    (h : noEmptyRooms rooms) :
    noEmptyRooms (removeSocketFromPresentation rooms pid sid) := by
  cases hl : lookupA rooms pid with
  | none => simpa [removeSocketFromPresentation, hl] using h
  | some s =>
    simp only [removeSocketFromPresentation, hl]
    by_cases hlen : (setDelete s sid).length = 0
    · rw [if_pos hlen]
      intro e he
      exact h e ((eraseA_sublist rooms pid).subset he)
    · rw [if_neg hlen]
      intro e he
      rcases mem_insertA he with h2 | h2
      · exact h e h2
      · rw [h2]
        intro hnil
        exact hlen (by simpa using congrArg List.length hnil)

theorem noEmptyRooms_disconnectLoop (rooms : Assoc (List String)) (sid : String)
    (h : noEmptyRooms rooms) : noEmptyRooms (disconnectLoop sid rooms).1 := by
  induction rooms with
  | nil => simp [disconnectLoop, noEmptyRooms]
  | cons e rest ih =>
    have hrest : noEmptyRooms rest := fun x hx => h x (List.mem_cons_of_mem _ hx)
    by_cases he : sid ∈ e.2
    · simp only [disconnectLoop, if_pos he]
      by_cases hlen : (setDelete e.2 sid).length = 0
      · rw [if_pos hlen]
        exact ih hrest
      · rw [if_neg hlen]
        intro x hx
        rcases List.mem_cons.mp hx with h2 | h2
        · rw [h2]
          intro hnil
          exact hlen (by simpa using congrArg List.length hnil)
        · exact ih hrest x h2
    · simp only [disconnectLoop, if_neg he]
      intro x hx
      rcases List.mem_cons.mp hx with h2 | h2
      · rw [h2]
        exact h e (List.mem_cons_self _ _)
      · exact ih hrest x h2

theorem step_preserves_noEmptyRooms (s : Sys) (e : Event)
    (h : noEmptyRooms s.state.activePresentations) :
    noEmptyRooms (step s e).state.activePresentations := by
  cases e with
  | join sid pid n r nu now ok =>
    by_cases hp : pid ∈ s.store.presentations
    · cases ok with
      | false => simpa [step, joinPresentation, hp] using h
      | true =>
        simp only [step, joinPresentation, if_pos hp, if_true]
        exact noEmptyRooms_addSocket _ pid sid h
    · simpa [step, joinPresentation, hp] using h
  | leave sid pid uid ok =>
    cases ok with
    | false => simpa [step, leavePresentation] using h
    | true =>
      simp only [step, leavePresentation, if_true]
      exact noEmptyRooms_removeSocket _ pid sid h
  | disconnect sid ok =>
    cases hu : lookupA s.state.socketUsers sid with
    | none => simpa [step, disconnectHandler, hu] using h
    | some uid =>
      cases ok with
      | false => simpa [step, disconnectHandler, hu] using h
      | true =>
        simp only [step, disconnectHandler, hu, if_true]
        exact noEmptyRooms_disconnectLoop _ sid h

theorem disconnectLoop_not_mem (rooms : Assoc (List String)) (sid : String) :
    ∀ e ∈ (disconnectLoop sid rooms).1, sid ∉ e.2 := by
  induction rooms with
  | nil => simp [disconnectLoop]
  | cons e rest ih =>
    by_cases he : sid ∈ e.2
    · simp only [disconnectLoop, if_pos he]
      by_cases hlen : (setDelete e.2 sid).length = 0
      · rw [if_pos hlen]
        exact ih
      · rw [if_neg hlen]
        intro x hx
        rcases List.mem_cons.mp hx with h2 | h2
        · rw [h2]
          simp [mem_setDelete]
        · exact ih x h2
    · simp only [disconnectLoop, if_neg he]
      intro x hx
      rcases List.mem_cons.mp hx with h2 | h2
      · rw [h2]
        exact he
      · exact ih x h2

theorem disconnectLoop_emits (rooms : Assoc (List String)) (sid p : String)
    (h : sid ∈ membersOf rooms p) :
    Action.emitRoom p sid "user-left" ∈ (disconnectLoop sid rooms).2 := by
  induction rooms with
  | nil => simp [membersOf, lookupA] at h
  | cons e rest ih =>
    obtain ⟨k, v⟩ := e
    by_cases hp : k = p
    · subst hp
      have hm : sid ∈ v := by simpa [membersOf, lookupA] using h
      simp only [disconnectLoop, if_pos hm]
      simp
    · have h2 : sid ∈ membersOf rest p := by
        simpa [membersOf, lookupA, hp] using h
      have hrec := ih h2
      by_cases hm : sid ∈ v
      · simp only [disconnectLoop, if_pos hm]
        exact List.mem_cons_of_mem _ hrec
      · simp only [disconnectLoop, if_neg hm]
        exact hrec

theorem membersOf_addSocket_ne (rooms : Assoc (List String)) (pid q : String)
    {sid t : String} (h : t ≠ sid) :
    t ∈ membersOf (addSocketToPresentation rooms pid sid) q
      ↔ t ∈ membersOf rooms q := by
  by_cases hq : pid = q
  · subst hq
    cases hl : lookupA rooms pid with
    | none =>
      simp [addSocketToPresentation, hl, membersOf, lookupA_insertA_self,
        mem_setAdd_ne h]
    | some s =>
      simp [addSocketToPresentation, hl, membersOf, lookupA_insertA_self,
        mem_setAdd_ne h]
  · cases hl : lookupA rooms pid with
    | none =>
      simp [addSocketToPresentation, hl, membersOf, lookupA_insertA_ne _ _ _ _ hq]
    | some s =>
      simp [addSocketToPresentation, hl, membersOf, lookupA_insertA_ne _ _ _ _ hq]

theorem onlyDeactivates_map (f : PresentationUser → PresentationUser)
    (l : List PresentationUser)
    (hf : ∀ a, (f a).id = a.id ∧ (f a).presentation_id = a.presentation_id ∧
      (f a).nickname = a.nickname ∧ (f a).role = a.role ∧
      (f a).socket_id = a.socket_id ∧ (f a).joined_at = a.joined_at ∧
      (f a).last_seen = a.last_seen ∧ ((f a).is_active = true → a.is_active = true)) :
    onlyDeactivates l (l.map f) := by
  induction l with
  | nil => exact List.Forall₂.nil
  | cons a rest ih => exact List.Forall₂.cons (hf a) ih

theorem recipients_map_emit (s : List String) (event : String) :
    recipients (s.map (fun sid => Action.emit sid event)) = s := by
  induction s with
  | nil => rfl
  | cons a rest ih => exact congrArg (List.cons a) ih

/-- Claim C1 (counterexample): with a room of three members A, B, C and an
excluding set containing A, the code's broadcast still delivers to A and does
not match the spec's excluding router — `broadcastToPresentation` cannot
exclude a sender, so the claimed contract fails at this input. -/
theorem C1_counterexample :
    "A" ∈ recipients (broadcastToPresentation [("P", ["A", "B", "C"])] "P" "slide-added") ∧
    recipients (broadcastToPresentation [("P", ["A", "B", "C"])] "P" "slide-added")
      ≠ broadcastSpecExcluding (membersOf [("P", ["A", "B", "C"])] "P") ["A"] := by
  decide

/-- Claim C1 (amended): `broadcastToPresentation` has no excluding parameter:
it delivers the event to exactly the members of the room, the originating
sender included whenever it is a member, and delivers to nobody, without
error, when the room is absent from the index. -/
theorem C1_broadcast_all_members (rooms : Assoc (List String)) (pid event : String) :
    recipients (broadcastToPresentation rooms pid event) = membersOf rooms pid := by
  cases hl : lookupA rooms pid with
  | none => simp [broadcastToPresentation, membersOf, recipients, hl]
  | some s =>
    simp only [broadcastToPresentation, membersOf, hl, Option.getD_some]
    exact recipients_map_emit s event

/-- Claim C5: a join naming a presentation absent from the persistent store
emits a single `error` event to the joining socket only and performs no
mutation at all: no session row is created, no registry binding is added,
and no room entry is made — the handler returns before any write. -/
theorem C5_join_notfound (σ : ServerState) (db : Store)
    (sid pid nickname role newUserId : String) (now : Int) (addOk : Bool)
    (h : pid ∉ db.presentations) :
    joinPresentation σ db sid pid nickname role newUserId now addOk
      = ⟨σ, db, [Action.emit sid "error"]⟩ := by
  unfold joinPresentation
  rw [if_neg h]

/-- Claim C5 (witness): joining the absent presentation Q changes nothing and
emits one error to the joining socket. -/
theorem C5_witness :
    joinPresentation ⟨[], [], []⟩ ⟨["P"], [], [], []⟩ "X" "Q" "alice" "viewer" "u1" 0 true
      = ⟨⟨[], [], []⟩, ⟨["P"], [], [], []⟩, [Action.emit "X" "error"]⟩ :=
  C5_join_notfound ⟨[], [], []⟩ ⟨["P"], [], [], []⟩ "X" "Q" "alice" "viewer" "u1" 0 true
    (by decide)

/-- Claim C6: removing the last member of a presentation deletes its entry
from the room index (the presentation becomes absent, not mapped to the empty
set), and every handler step preserves the absence of empty-set entries. -/
theorem C6_no_empty_room (rooms : Assoc (List String)) (pid sid : String)
    (s : Sys) (e : Event)
    (hnd : (rooms.map Prod.fst).Nodup)
    (hlast : lookupA rooms pid = some [sid])
    (hne : noEmptyRooms s.state.activePresentations) :
    lookupA (removeSocketFromPresentation rooms pid sid) pid = none ∧
    noEmptyRooms (step s e).state.activePresentations := by
  constructor
  · simp only [removeSocketFromPresentation, hlast]
    have hdel : setDelete [sid] sid = [] := by simp [setDelete]
    rw [hdel]
    simp only [List.length_nil, if_pos rfl, if_true]
    exact lookupA_eraseA_self hnd
  · exact step_preserves_noEmptyRooms s e hne

/-- Claim C6 (witness): X leaving as last member of P removes P's entry, and
a concrete leave step keeps the index free of empty rooms. -/
theorem C6_witness :
    lookupA (removeSocketFromPresentation [("P", ["X"])] "P" "X") "P" = none ∧
    noEmptyRooms (step ⟨⟨[("P", ["X"])], [("u1", "X")], [("X", "u1")]⟩, ⟨["P"], [], [], []⟩⟩
        (Event.leave "X" "P" "u1" true)).state.activePresentations :=
  C6_no_empty_room [("P", ["X"])] "P" "X" _ _ (by decide) (by decide)
    (by unfold noEmptyRooms; decide)

/-- Claim C7: the reaper marks a session inactive exactly when it is active
and its `last_seen` is strictly older than now minus the threshold (minutes,
compared in milliseconds), leaves newer or already-inactive sessions exactly
as they were, never flips inactive back to active, and applies this row by
row to the whole table. -/
theorem C7_reaper (db : Store) (now m : Int) (s : PresentationUser) :
    (cleanupInactiveUsers db now m).sessions = db.sessions.map (reapSession now m) ∧
    (s.is_active = true → s.last_seen < now - m * 60 * 1000 →
      reapSession now m s = { s with is_active := false }) ∧
    (¬ s.last_seen < now - m * 60 * 1000 → reapSession now m s = s) ∧
    (s.is_active = false → reapSession now m s = s) ∧
    ((reapSession now m s).is_active = true → s.is_active = true) := by
  refine ⟨rfl, ?_, ?_, ?_, ?_⟩
  · intro ha hl
    simp [reapSession, ha, hl]
  · intro hl
    simp [reapSession, hl]
  · intro ha
    simp [reapSession, ha]
  · intro h
    unfold reapSession at h
    by_cases hc : s.last_seen < now - m * 60 * 1000 ∧ s.is_active = true
    · rw [if_pos hc] at h
      simp at h
    · rwa [if_neg hc] at h

/-- Claim C7 (witness): with threshold 30 minutes and now = 2000000 ms, the
session last seen 31 minutes ago (140000) becomes inactive and the session
last seen 29 minutes ago (260000) is unchanged. -/
theorem C7_witness :
    reapSession 2000000 30 ⟨"s1", "P", "a", "viewer", none, true, 0, 140000⟩
      = ⟨"s1", "P", "a", "viewer", none, false, 0, 140000⟩ ∧
    reapSession 2000000 30 ⟨"s2", "P", "b", "viewer", none, true, 0, 260000⟩
      = ⟨"s2", "P", "b", "viewer", none, true, 0, 260000⟩ :=
  ⟨(C7_reaper ⟨[], [], [], []⟩ 2000000 30 ⟨"s1", "P", "a", "viewer", none, true, 0, 140000⟩).2.1
      rfl (by decide),
   (C7_reaper ⟨[], [], [], []⟩ 2000000 30 ⟨"s2", "P", "b", "viewer", none, true, 0, 260000⟩).2.2.1
      (by decide)⟩

/-- Claim C2 (counterexample): connection X joins P as session u1, then
connection Y joins with the same participant identity (same nickname) while
X is still connected.  The join handler performs no stale-connection
detection: afterwards X is still in P's room set, X's registry binding is
still in place, and both session rows are active — X was not forced through
disconnect and Y is not the sole binding. -/
theorem C2_counterexample :
    "X" ∈ membersOf (run ⟨⟨[], [], []⟩, ⟨["P"], [], [], []⟩⟩
        [Event.join "X" "P" "alice" "viewer" "u1" 0 true,
         Event.join "Y" "P" "alice" "viewer" "u2" 5 true]).state.activePresentations "P" ∧
    lookupA (run ⟨⟨[], [], []⟩, ⟨["P"], [], [], []⟩⟩
        [Event.join "X" "P" "alice" "viewer" "u1" 0 true,
         Event.join "Y" "P" "alice" "viewer" "u2" 5 true]).state.socketUsers "X" = some "u1" ∧
    ((run ⟨⟨[], [], []⟩, ⟨["P"], [], [], []⟩⟩
        [Event.join "X" "P" "alice" "viewer" "u1" 0 true,
         Event.join "Y" "P" "alice" "viewer" "u2" 5 true]).store.sessions.filter
      (fun s => s.is_active)).length = 2 := by
  decide

/-- Claim C2 (amended): a join by a fresh connection Y never touches another
connection X: X's membership in every room is unchanged, X's registry
binding is unchanged, and every existing session row survives (the join only
appends a fresh row) — there is no forced disconnect of a stale prior
connection. -/
theorem C2_join_no_reconnect_cleanup (σ : ServerState) (db : Store)
    (X Y pid nickname role newUserId : String) (now : Int) (hXY : X ≠ Y) :
    (∀ q, X ∈ membersOf (joinPresentation σ db Y pid nickname role newUserId now true).state.activePresentations q
        ↔ X ∈ membersOf σ.activePresentations q) ∧
    lookupA (joinPresentation σ db Y pid nickname role newUserId now true).state.socketUsers X
      = lookupA σ.socketUsers X ∧
    (∀ s ∈ db.sessions,
      s ∈ (joinPresentation σ db Y pid nickname role newUserId now true).store.sessions) := by
  by_cases hp : pid ∈ db.presentations
  · refine ⟨?_, ?_, ?_⟩
    · intro q
      simp only [joinPresentation, if_pos hp, if_true]
      exact membersOf_addSocket_ne _ _ _ hXY
    · simp only [joinPresentation, if_pos hp, if_true]
      exact lookupA_insertA_ne _ _ _ _ hXY.symm
    · intro s hs
      simp only [joinPresentation, if_pos hp, if_true, addUserToPresentation]
      exact List.mem_append_left _ hs
  · simp [joinPresentation, hp]

/-- Claim C2 (witness): a concrete second join leaves the first connection's
membership, binding and session row intact. -/
theorem C2_witness :
    ("X" ∈ membersOf (joinPresentation ⟨[("P", ["X"])], [("u1", "X")], [("X", "u1")]⟩
        ⟨["P"], [⟨"u1", "P", "alice", "viewer", some "X", true, 0, 0⟩], [], []⟩
        "Y" "P" "alice" "viewer" "u2" 5 true).state.activePresentations "P"
      ↔ "X" ∈ membersOf [("P", ["X"])] "P") ∧
    lookupA (joinPresentation ⟨[("P", ["X"])], [("u1", "X")], [("X", "u1")]⟩
        ⟨["P"], [⟨"u1", "P", "alice", "viewer", some "X", true, 0, 0⟩], [], []⟩
        "Y" "P" "alice" "viewer" "u2" 5 true).state.socketUsers "X"
      = lookupA [("X", "u1")] "X" :=
  ⟨(C2_join_no_reconnect_cleanup ⟨[("P", ["X"])], [("u1", "X")], [("X", "u1")]⟩
      ⟨["P"], [⟨"u1", "P", "alice", "viewer", some "X", true, 0, 0⟩], [], []⟩
      "X" "Y" "P" "alice" "viewer" "u2" 5 (by decide)).1 "P",
   (C2_join_no_reconnect_cleanup ⟨[("P", ["X"])], [("u1", "X")], [("X", "u1")]⟩
      ⟨["P"], [⟨"u1", "P", "alice", "viewer", some "X", true, 0, 0⟩], [], []⟩
      "X" "Y" "P" "alice" "viewer" "u2" 5 (by decide)).2.1⟩

/-- Claim C3 (counterexample): a connection that joins presentation P1 and
then joins P2 without leaving ends up in both rooms' membership sets after
the second step — invariant I1 fails for this event sequence. -/
theorem C3_counterexample :
    ¬ I1 (run ⟨⟨[], [], []⟩, ⟨["P1", "P2"], [], [], []⟩⟩
        [Event.join "X" "P1" "alice" "viewer" "u1" 0 true,
         Event.join "X" "P2" "alice" "viewer" "u2" 0 true]).state :=
  fun h => absurd (h "X") (by decide)

/-- Claim C3 (amended): I1 — every connection handle in at most one room's
set — holds after each step of any join/leave/disconnect sequence in which
each join is made by a connection currently in no room (fresh, or having
left/disconnected first); a second join without leaving violates I1. -/
theorem C3_I1_guarded (es : List Event) (s : Sys) (h1 : I1 s.state)
    (hg : goodSeq s es) : holdsAlong (fun t => I1 t.state) s es := by
  induction es generalizing s with
  | nil => trivial
  | cons e rest ih =>
    exact ⟨step_preserves_I1 s e hg.1 h1,
           ih (step s e) (step_preserves_I1 s e hg.1 h1) hg.2⟩

/-- Claim C3 (witness): a concrete guarded sequence from the empty state
keeps I1 after each step. -/
theorem C3_witness :
    holdsAlong (fun t => I1 t.state)
      ⟨⟨[], [], []⟩, ⟨["P"], [], [], []⟩⟩
      [Event.join "X" "P" "alice" "viewer" "u1" 0 true] :=
  C3_I1_guarded [Event.join "X" "P" "alice" "viewer" "u1" 0 true]
    ⟨⟨[], [], []⟩, ⟨["P"], [], [], []⟩⟩ (fun _ => Nat.zero_le 1) ⟨rfl, trivial⟩

/-- Claim C4 (counterexample): with X the sole member of room P, a leave
whose store call fails leaves X in the room set and in both registry maps —
the in-memory cleanup did not proceed despite the logged error. -/
theorem C4_counterexample :
    "X" ∈ membersOf (leavePresentation ⟨[("P", ["X"])], [("u1", "X")], [("X", "u1")]⟩
        ⟨["P"], [⟨"u1", "P", "alice", "viewer", some "X", true, 0, 0⟩], [], []⟩
        "X" "P" "u1" false).state.activePresentations "P" ∧
    lookupA (leavePresentation ⟨[("P", ["X"])], [("u1", "X")], [("X", "u1")]⟩
        ⟨["P"], [⟨"u1", "P", "alice", "viewer", some "X", true, 0, 0⟩], [], []⟩
        "X" "P" "u1" false).state.socketUsers "X" = some "u1" := by
  decide

/-- Claim C4 (amended): when the store call of a leave or disconnect fails,
the handler logs the error and aborts: the in-memory cleanup is skipped and
the registry maps, room index and store are left exactly unchanged —
cleanup proceeds only when the store call succeeds. -/
theorem C4_store_error_skips_cleanup (σ : ServerState) (db : Store)
    (sid pid uid : String) :
    leavePresentation σ db sid pid uid false
      = ⟨σ, db, [Action.log "Error leaving presentation"]⟩ ∧
    (∀ u, lookupA σ.socketUsers sid = some u →
      disconnectHandler σ db sid false
        = ⟨σ, db, [Action.log "Error handling disconnect"]⟩) := by
  constructor
  · simp [leavePresentation]
  · intro u hu
    simp [disconnectHandler, hu]

/-- Claim C4 (witness): a concrete failing disconnect changes nothing and
only logs. -/
theorem C4_witness :
    disconnectHandler ⟨[("P", ["X"])], [("u1", "X")], [("X", "u1")]⟩
        ⟨["P"], [], [], []⟩ "X" false
      = ⟨⟨[("P", ["X"])], [("u1", "X")], [("X", "u1")]⟩, ⟨["P"], [], [], []⟩,
         [Action.log "Error handling disconnect"]⟩ :=
  (C4_store_error_skips_cleanup ⟨[("P", ["X"])], [("u1", "X")], [("X", "u1")]⟩
      ⟨["P"], [], [], []⟩ "X" "P" "u1").2 "u1" (by decide)

/-- Claim C8: in the add-slide and update-text-block handlers, every
broadcast emission of the applied event sits at a strictly later position of
the action trace than the store write — no broadcast is emitted before the
store mutation has returned (and on a store failure no broadcast happens at
all, only a scoped error emit). -/
theorem C8_write_before_broadcast (σ : ServerState) (db : Store)
    (sid pid title tbid content newId : String) (index : Int) (storeOk : Bool) :
    (∀ j t, ((addSlideHandler σ db sid pid title index newId storeOk).2).get? j
        = some (Action.emit t "slide-added") →
      ∃ i, i < j ∧ ((addSlideHandler σ db sid pid title index newId storeOk).2).get? i
        = some (Action.storeWrite "addSlide")) ∧
    (∀ j t, ((updateTextBlockHandler σ db sid pid tbid content storeOk).2).get? j
        = some (Action.emit t "text-block-updated") →
      ∃ i, i < j ∧ ((updateTextBlockHandler σ db sid pid tbid content storeOk).2).get? i
        = some (Action.storeWrite "updateTextBlock")) := by
  constructor
  · intro j t hj
    cases storeOk with
    | false =>
      simp only [addSlideHandler, Bool.false_eq_true, if_false] at hj
      rcases j with _ | _ | j <;> simp at hj
    | true =>
      rcases j with _ | j
      · simp [addSlideHandler] at hj
      · exact ⟨0, Nat.succ_pos j, by simp [addSlideHandler]⟩
  · intro j t hj
    cases storeOk with
    | false =>
      simp only [updateTextBlockHandler, Bool.false_eq_true, if_false] at hj
      rcases j with _ | _ | j <;> simp at hj
    | true =>
      rcases j with _ | j
      · simp [updateTextBlockHandler] at hj
      · exact ⟨0, Nat.succ_pos j, by simp [updateTextBlockHandler]⟩

/-- Claim C8 (witness): in a concrete add-slide trace the broadcast at
position 1 is preceded by the store write at position 0. -/
theorem C8_witness :
    ∃ i, i < 1 ∧
      ((addSlideHandler ⟨[("P", ["A"])], [], []⟩ ⟨["P"], [], [], []⟩
          "A" "P" "T" 0 "s9" true).2).get? i
        = some (Action.storeWrite "addSlide") :=
  (C8_write_before_broadcast ⟨[("P", ["A"])], [], []⟩ ⟨["P"], [], [], []⟩
      "A" "P" "T" "tb" "c" "s9" 0 true).1 1 "A" (by decide)

/-- Claim C9: none of leave, disconnect or the reaper sweep deletes a
session row: each one maps the table row by row, keeping every field except
`is_active` unchanged and only ever moving `is_active` from true to false,
while a join only appends a fresh row, keeping all existing rows. -/
theorem C9_sessions_never_deleted (db : Store) (pid uid sid : String)
    (now m : Int) (σ : ServerState) (nickname role newUserId : String)
    (addOk : Bool) :
    onlyDeactivates db.sessions (removeUserFromPresentation db pid uid).sessions ∧
    onlyDeactivates db.sessions (removeUserBySocketId db sid).sessions ∧
    onlyDeactivates db.sessions (cleanupInactiveUsers db now m).sessions ∧
    (∀ s ∈ db.sessions,
      s ∈ (joinPresentation σ db sid pid nickname role newUserId now addOk).store.sessions) := by
  refine ⟨?_, ?_, ?_, ?_⟩
  · apply onlyDeactivates_map
    intro a
    by_cases hc : a.id = uid ∧ a.presentation_id = pid
    · simp [hc]
    · simp [hc]
  · apply onlyDeactivates_map
    intro a
    by_cases hc : a.socket_id = some sid
    · simp [hc]
    · simp [hc]
  · apply onlyDeactivates_map
    intro a
    unfold reapSession
    by_cases hc : a.last_seen < now - m * 60 * 1000 ∧ a.is_active = true
    · simp [hc]
    · simp [hc]
  · intro s hs
    by_cases hp : pid ∈ db.presentations
    · cases addOk with
      | false => simpa [joinPresentation, hp] using hs
      | true =>
        simp only [joinPresentation, if_pos hp, if_true, addUserToPresentation]
        exact List.mem_append_left _ hs
    · simpa [joinPresentation, hp] using hs

/-- Claim C9 (witness): an existing session row survives a concrete join. -/
theorem C9_witness :
    (⟨"u1", "P", "alice", "viewer", some "X", true, 0, 0⟩ : PresentationUser)
      ∈ (joinPresentation ⟨[], [], []⟩
          ⟨["P"], [⟨"u1", "P", "alice", "viewer", some "X", true, 0, 0⟩], [], []⟩
          "Y" "P" "bob" "viewer" "u2" 5 true).store.sessions :=
  (C9_sessions_never_deleted
      ⟨["P"], [⟨"u1", "P", "alice", "viewer", some "X", true, 0, 0⟩], [], []⟩
      "P" "u0" "Y" 5 30 ⟨[], [], []⟩ "bob" "viewer" "u2" true).2.2.2
    ⟨"u1", "P", "alice", "viewer", some "X", true, 0, 0⟩ (by decide)

/-- Claim C10 (counterexample): a socket that joined twice (so its earlier
binding was overwritten in socketUsers) is disconnected with a binding
present and the store call succeeding, yet afterwards it still appears as a
value in userSockets under the earlier userId — it is not absent from both
registry maps. -/
theorem C10_counterexample :
    "X" ∈ ((run ⟨⟨[], [], []⟩, ⟨["P"], [], [], []⟩⟩
        [Event.join "X" "P" "alice" "viewer" "u1" 0 true,
         Event.join "X" "P" "alice" "viewer" "u2" 1 true,
         Event.disconnect "X" true]).state.userSockets.map Prod.snd) := by
  decide

/-- Claim C10 (amended): when a disconnect finds a registry binding and the
store call succeeds, the socket's key is removed from socketUsers, the
currently bound userId's entry is removed from userSockets, the socket is
removed from every room's membership set (not just the last one joined), and
a user-left event is emitted to each room that contained it; stale
userSockets entries left by earlier overwritten joins of the same socket may
survive. -/
theorem C10_disconnect_cleanup (σ : ServerState) (db : Store) (sid uid : String)
    (h : lookupA σ.socketUsers sid = some uid)
    (hnd1 : (σ.socketUsers.map Prod.fst).Nodup)
    (hnd2 : (σ.userSockets.map Prod.fst).Nodup) :
    lookupA (disconnectHandler σ db sid true).state.socketUsers sid = none ∧
    lookupA (disconnectHandler σ db sid true).state.userSockets uid = none ∧
    (∀ p, sid ∉ membersOf (disconnectHandler σ db sid true).state.activePresentations p) ∧
    (∀ p, sid ∈ membersOf σ.activePresentations p →
      Action.emitRoom p sid "user-left" ∈ (disconnectHandler σ db sid true).actions) := by
  simp only [disconnectHandler, h, if_true]
  refine ⟨lookupA_eraseA_self hnd1, lookupA_eraseA_self hnd2, ?_, ?_⟩
  · intro p hmem
    unfold membersOf at hmem
    cases hl : lookupA (disconnectLoop sid σ.activePresentations).1 p with
    | none =>
      rw [hl] at hmem
      simp at hmem
    | some v =>
      rw [hl] at hmem
      simp only [Option.getD_some] at hmem
      exact disconnectLoop_not_mem σ.activePresentations sid (p, v)
        (mem_of_lookupA hl) hmem
  · intro p hp
    exact List.mem_cons_of_mem _ (disconnectLoop_emits σ.activePresentations sid p hp)

/-- Claim C10 (witness): a concrete disconnect removes the socket from both
current bindings, from its room, and emits user-left to that room. -/
theorem C10_witness :
    lookupA (disconnectHandler ⟨[("P", ["X", "Y"])], [("u1", "X"), ("u2", "Y")], [("X", "u1"), ("Y", "u2")]⟩
        ⟨["P"], [], [], []⟩ "X" true).state.socketUsers "X" = none ∧
    "X" ∉ membersOf (disconnectHandler ⟨[("P", ["X", "Y"])], [("u1", "X"), ("u2", "Y")], [("X", "u1"), ("Y", "u2")]⟩
        ⟨["P"], [], [], []⟩ "X" true).state.activePresentations "P" ∧
    Action.emitRoom "P" "X" "user-left"
      ∈ (disconnectHandler ⟨[("P", ["X", "Y"])], [("u1", "X"), ("u2", "Y")], [("X", "u1"), ("Y", "u2")]⟩
          ⟨["P"], [], [], []⟩ "X" true).actions :=
  ⟨(C10_disconnect_cleanup ⟨[("P", ["X", "Y"])], [("u1", "X"), ("u2", "Y")], [("X", "u1"), ("Y", "u2")]⟩
      ⟨["P"], [], [], []⟩ "X" "u1" (by decide) (by decide) (by decide)).1,
   (C10_disconnect_cleanup ⟨[("P", ["X", "Y"])], [("u1", "X"), ("u2", "Y")], [("X", "u1"), ("Y", "u2")]⟩
      ⟨["P"], [], [], []⟩ "X" "u1" (by decide) (by decide) (by decide)).2.2.1 "P",
   (C10_disconnect_cleanup ⟨[("P", ["X", "Y"])], [("u1", "X"), ("u2", "Y")], [("X", "u1"), ("Y", "u2")]⟩
      ⟨["P"], [], [], []⟩ "X" "u1" (by decide) (by decide) (by decide)).2.2.2 "P" (by decide)⟩

end Backend
